import Mathlib

/-!
# Verification of claude-swiftbar-status core algorithms

Shallow embedding of the two core algorithms of the repository:

* `resolve` — session-to-log claim resolution, from `src/resolve_transcript.py`.
  The filesystem snapshot is modelled by `FS`: the state directory is a list of
  `StateFile`s (one per `session-<tty>.json` file; `content = none` models a
  file whose read or JSON parse raises, `content = some tp` a successful
  `json.load(...).get("transcript_path", "")`), `existing` is the set of paths
  for which `os.path.isfile` answers true, and `candidates` lists the
  `*.jsonl` files of the project directory together with their mtimes.
  Python exceptions caught inside `resolve` are modelled by the `none` content;
  a nonexistent state directory is the snapshot with `stateFiles = []`.

* the tab→slot mapping of `claude-status-cache.sh` (exercised by
  `test/test_slot_mapping.py`): `claudeTtys` filters the tab-ordered TTY list
  by the PID map, and `slotAssignments` reproduces the
  `slot=1; while (( slot <= count ))` loop that writes `SLOT_<n>_TTY` entries
  with the reversed index `count - slot + 1` (1-based); `mapSlot` is the
  slot plugin's read of that cache (a slot beyond `SLOT_COUNT` finds nothing
  and hides).
-/

namespace ClaudeSwiftBar

/-- One `session-<tty>.json` file of the state directory.  `content = none`
models an unreadable or unparseable file; `content = some tp` a record whose
`transcript_path` field parsed to `tp` (`""` when the field is absent). -/
structure StateFile where
  tty : String
  content : Option String
deriving Repr, DecidableEq

/-- A filesystem snapshot: the state-directory listing, the `os.path.isfile`
oracle, and the `*.jsonl` candidates of the project directory with mtimes. -/
structure FS where
  stateFiles : List StateFile
  existing : List String
  candidates : List (String × Int)
deriving Repr

/-- The `os.path.isfile` oracle in the snapshot. -/
def isfile (fs : FS) (p : String) : Bool := fs.existing.contains p

/-- Step 1 of `resolve`: try this TTY's own state file.  Returns `some tp`
exactly when the file exists, reads and parses, and its `transcript_path` is
non-empty and names an existing file (`if tp and os.path.isfile(tp)`). -/
def fastPath (tty_short : String) (fs : FS) : Option String :=
  match fs.stateFiles.find? (fun r => r.tty == tty_short) with
  | some r =>
    match r.content with
    | some tp => if !(tp == "") && isfile fs tp then some tp else none
    | none => none
  | none => none

/-- The claim contributed by one state record during step 2 of `resolve`
(the loop body over `glob(state_dir/session-*.json)`): skipped when the
record's tty is the querying one or not active (`continue`), or when the
record does not parse, or when its path is empty or names no existing file. -/
def claimOf (tty_short : String) (fs : FS) (active_ttys : List String)
    (r : StateFile) : Option String :=
  if r.tty == tty_short || !(active_ttys.contains r.tty) then none
  else
    match r.content with
    | some ct => if !(ct == "") && isfile fs ct then some ct else none
    | none => none

/-- Step 2 of `resolve`: transcripts claimed by OTHER active sessions. -/
def claimedSet (tty_short : String) (fs : FS) (active_ttys : List String) :
    List String :=
  fs.stateFiles.filterMap (claimOf tty_short fs active_ttys)

/-- Candidates ordered by `sorted(..., key=getmtime, reverse=True)`:
most recent first, stable among equal mtimes. -/
def sortedCandidates (fs : FS) : List (String × Int) :=
  List.insertionSort (fun a b => b.2 ≤ a.2) fs.candidates

/-- Step 3 of `resolve`: the most recent candidate not claimed by another
active session, or `""`. -/
def fallback (tty_short : String) (fs : FS) (active_ttys : List String) :
    String :=
  match (sortedCandidates fs).find?
      (fun t => !((claimedSet tty_short fs active_ttys).contains t.1)) with
  | some t => t.1
  | none => ""

/-- Function `resolve` from `src/resolve_transcript.py`: the transcript path for
`tty_short`, or `""` if none found. -/
def resolve (tty_short : String) (fs : FS) (active_ttys : List String) :
    String :=
  match fastPath tty_short fs with
  | some tp => tp
  | none => fallback tty_short fs active_ttys

/-! ### Slot mapping (claude-status-cache.sh / ClaudeBar.sh) -/

/-- The `CLAUDE_TTYS` list: the tab-ordered `ITERM_TTYS` filtered to those with an
entry in `PID_BY_TTY`.  This is the spec's `liveSessions`. -/
def claudeTtys (iterm_ttys : List String) (pid_by_tty : List (String × Nat)) :
    List String :=
  iterm_ttys.filter (fun t => (pid_by_tty.lookup t).isSome)

/-- The `SLOT_COUNT` value published in the cache: `count=${#CLAUDE_TTYS[@]}`. -/
def slotCount (iterm_ttys : List String) (pid_by_tty : List (String × Nat)) :
    Nat :=
  (claudeTtys iterm_ttys pid_by_tty).length

/-- The cache builder's `while (( slot <= count ))` loop: starting at `slot`,
with `fuel` iterations left, emit `(slot, CLAUDE_TTYS[count - slot + 1])`
pairs (1-based zsh indexing, so 0-based index `count - slot`). -/
def slotLoopAux (live : List String) : Nat → Nat → List (Nat × String)
  | _, 0 => []
  | slot, fuel + 1 =>
    (slot, live.getD (live.length - slot) "") :: slotLoopAux live (slot + 1) fuel

/-- All `SLOT_<n>_TTY` entries written to the cache. -/
def slotAssignments (live : List String) : List (Nat × String) :=
  slotLoopAux live 1 live.length

/-- The slot plugin's view: slot `n` shows the TTY stored under `SLOT_<n>_TTY`,
and hides (`none`) when no such entry exists (in particular when
`n > SLOT_COUNT`). -/
def mapSlot (iterm_ttys : List String) (pid_by_tty : List (String × Nat))
    (n : Nat) : Option String :=
  (slotAssignments (claudeTtys iterm_ttys pid_by_tty)).lookup n

instance : IsTotal (String × Int) (fun a b => b.2 ≤ a.2) :=
  ⟨fun a b => le_total b.2 a.2⟩

instance : IsTrans (String × Int) (fun a b => b.2 ≤ a.2) :=
  ⟨fun _ _ _ hab hbc => le_trans hbc hab⟩

/-! ### Witness snapshots (mirroring the repository's test fixtures) -/

/-- Snapshot of `test_state_file_valid`: one session with a valid record. -/
def wfsValid : FS :=
  ⟨[⟨"ttys000", some "/p/aaa.jsonl"⟩], ["/p/aaa.jsonl"], [("/p/aaa.jsonl", 100)]⟩

/-- Snapshot of `test_one_stale_does_not_steal`: `ttys000` has a stale record,
`ttys009` validly claims the newest transcript `bbb`. -/
def wfsStale : FS :=
  ⟨[⟨"ttys000", some "/nonexistent/gone.jsonl"⟩, ⟨"ttys009", some "/p/bbb.jsonl"⟩],
    ["/p/aaa.jsonl", "/p/bbb.jsonl"],
    [("/p/bbb.jsonl", 100), ("/p/aaa.jsonl", 95)]⟩

/-- Snapshot of `test_dead_session_claim_not_blocking`: a non-active session's
record points at the only transcript. -/
def wfsDead : FS :=
  ⟨[⟨"ttys005", some "/p/only.jsonl"⟩], ["/p/only.jsonl"], [("/p/only.jsonl", 100)]⟩

/-- Snapshot of `test_state_file_missing`: empty state dir, an older and a
newer transcript. -/
def wfsEmpty : FS :=
  ⟨[], ["/p/old.jsonl", "/p/new.jsonl"],
    [("/p/old.jsonl", 90), ("/p/new.jsonl", 100)]⟩

/-- Snapshot of `test_corrupt_state_file`: the querying session's record is
unreadable, one real transcript exists. -/
def wfsCorrupt : FS :=
  ⟨[⟨"ttys000", none⟩], ["/p/real.jsonl"], [("/p/real.jsonl", 100)]⟩

/-- Snapshot `wfsCorrupt` with the corrupt record dropped. -/
def wfsCorruptRemoved : FS :=
  ⟨[], ["/p/real.jsonl"], [("/p/real.jsonl", 100)]⟩

/-- Sample tab order for slot-mapping witnesses (the spec's scenario
`[T9, T0, T2]` with `{T9, T0}` live). -/
def wtabs : List String := ["/dev/ttys009", "/dev/ttys000", "/dev/ttys002"]

/-- Sample PID map: the first two tabs run a session. -/
def wpids : List (String × Nat) := [("/dev/ttys009", 1000), ("/dev/ttys000", 1001)]

/-- Tab order `wtabs` after the user swaps the first two tabs. -/
def wtabsSwapped : List String := ["/dev/ttys000", "/dev/ttys009", "/dev/ttys002"]

/-! ### Helper lemmas -/

/-- In a state directory whose file names (hence ttys) are distinct,
looking up a tty finds exactly the member record with that tty. -/
theorem find?_eq_of_nodup_mem {l : List StateFile}
    (h : (l.map StateFile.tty).Nodup) {r : StateFile} (hr : r ∈ l) :
    l.find? (fun x => x.tty == r.tty) = some r := by
  induction l with
  | nil => cases hr
  | cons a t ih =>
    rcases List.mem_cons.mp hr with rfl | hmem
    · simp [List.find?]
    · have hne : a.tty ≠ r.tty := by
        intro he
        exact (List.nodup_cons.mp h).1 (he ▸ List.mem_map_of_mem StateFile.tty hmem)
      rw [List.find?_cons_of_neg _ (by simpa using hne)]
      exact ih (List.nodup_cons.mp h).2 hmem

/-- Membership characterization of the claimed set. -/
theorem mem_claimedSet {S L : String} {fs : FS} {active : List String} :
    L ∈ claimedSet S fs active ↔
      ∃ r ∈ fs.stateFiles, r.tty ≠ S ∧ active.contains r.tty = true ∧
        r.content = some L ∧ L ≠ "" ∧ isfile fs L = true := by
  unfold claimedSet claimOf
  rw [List.mem_filterMap]
  constructor
  · rintro ⟨r, hr, hf⟩
    refine ⟨r, hr, ?_⟩
    split at hf
    · cases hf
    · rename_i hcond
      have h1 : (r.tty == S) = false := by
        cases hS : (r.tty == S) with
        | false => rfl
        | true => exact absurd (by simp [hS]) hcond
      have h2 : active.contains r.tty = true := by
        cases hA : active.contains r.tty with
        | true => rfl
        | false => exact absurd (by rw [hA, Bool.not_false, Bool.or_true]) hcond
      split at hf
      · rename_i ct hc
        split at hf
        · rename_i hok
          injection hf with hct
          subst hct
          simp only [Bool.and_eq_true, Bool.not_eq_true'] at hok
          exact ⟨ne_of_beq_false h1, h2, hc, ne_of_beq_false hok.1, hok.2⟩
        · cases hf
      · cases hf
  · rintro ⟨r, hr, h1, h2, hc, hne, hex⟩
    refine ⟨r, hr, ?_⟩
    rw [if_neg (by rw [h2]; simp [h1]), hc]
    show (if (!(L == "") && isfile fs L) = true then some L else none) = some L
    rw [if_pos (by simp [hne, hex])]

/-- If the querying session's own fast path fails, `resolve` runs the
fallback. -/
theorem resolve_eq_fallback {S : String} {fs : FS} {active : List String}
    (h : fastPath S fs = none) : resolve S fs active = fallback S fs active := by
  unfold resolve
  rw [h]

/-- Whatever the fallback returns non-trivially was found unclaimed among the
sorted candidates. -/
theorem fallback_cases (S : String) (fs : FS) (active : List String) :
    (∃ t, (sortedCandidates fs).find?
        (fun t => !((claimedSet S fs active).contains t.1)) = some t ∧
        fallback S fs active = t.1 ∧ t.1 ∉ claimedSet S fs active) ∨
      ((sortedCandidates fs).find?
        (fun t => !((claimedSet S fs active).contains t.1)) = none ∧
        fallback S fs active = "") := by
  cases hf : (sortedCandidates fs).find?
      (fun t => !((claimedSet S fs active).contains t.1)) with
  | some t =>
    left
    refine ⟨t, rfl, by unfold fallback; rw [hf], ?_⟩
    have hp := List.find?_some hf
    simp only [Bool.not_eq_true'] at hp
    intro hmem
    simp [hmem] at hp
  | none => exact Or.inr ⟨rfl, by unfold fallback; rw [hf]⟩

/-- The candidate ordering is a permutation of the directory listing. -/
theorem sortedCandidates_perm (fs : FS) :
    (sortedCandidates fs).Perm fs.candidates :=
  List.perm_insertionSort _ _

/-- The candidate ordering is sorted by mtime, most recent first. -/
theorem sortedCandidates_sorted (fs : FS) :
    (sortedCandidates fs).Sorted (fun a b => b.2 ≤ a.2) :=
  List.sorted_insertionSort _ _

/-- In an mtime-descending list, the first element satisfying `p` has an
mtime at least that of every element satisfying `p`. -/
theorem find?_sorted_max {p : String × Int → Bool} {l : List (String × Int)}
    (hs : l.Sorted (fun a b => b.2 ≤ a.2)) {c : String × Int}
    (hf : l.find? p = some c) :
    ∀ u ∈ l, p u = true → u.2 ≤ c.2 := by
  induction l with
  | nil => cases hf
  | cons a t ih =>
    cases hpa : p a with
    | true =>
      rw [List.find?_cons_of_pos _ hpa] at hf
      injection hf with h
      subst h
      intro u hu _
      rcases List.mem_cons.mp hu with rfl | hut
      · exact le_refl _
      · exact (List.sorted_cons.mp hs).1 u hut
    | false =>
      rw [List.find?_cons_of_neg _ (by simp [hpa])] at hf
      intro u hu hpu
      rcases List.mem_cons.mp hu with rfl | hut
      · rw [hpu] at hpa; cases hpa
      · exact ih (List.sorted_cons.mp hs).2 hf u hut hpu

/-! ### Claims -/

/-- C1: Fast-path precedence.  If session `S`'s own state record exists
(uniquely, as filenames are), parses to a non-empty `transcript_path` that
names an existing file, then `resolve` returns exactly that path, whatever
the other records contain and whether or not `S` is in the active set. -/
theorem fast_path_precedence (S tp : String) (fs : FS) (active : List String)
    (hnodup : (fs.stateFiles.map StateFile.tty).Nodup)
    (hmem : StateFile.mk S (some tp) ∈ fs.stateFiles)
    (htp : tp ≠ "") (hex : isfile fs tp = true) :
    resolve S fs active = tp := by
  have hf : fs.stateFiles.find? (fun r => r.tty == S) = some ⟨S, some tp⟩ :=
    find?_eq_of_nodup_mem hnodup hmem
  have hfp : fastPath S fs = some tp := by
    unfold fastPath
    rw [hf]
    show (if (!(tp == "") && isfile fs tp) = true then some tp else none) = some tp
    rw [if_pos (by simp [htp, hex])]
  unfold resolve
  rw [hfp]

/-- C1 witness: the `test_state_file_valid` snapshot. -/
theorem fast_path_precedence_witness :
    resolve "ttys000" wfsValid ["ttys000"] = "/p/aaa.jsonl" :=
  fast_path_precedence "ttys000" "/p/aaa.jsonl" wfsValid ["ttys000"]
    (by decide) (by decide) (by decide) (by decide)

/-- C2: No-steal.  If `S`'s own fast path fails (record missing, unparseable,
or pointing to a nonexistent log) and a *different* active session `T` has a
valid record claiming the existing log `L`, then `resolve` never hands `L`
to `S`. -/
theorem no_steal (S T L : String) (fs : FS) (active : List String)
    (hfp : fastPath S fs = none)
    (hT : T ≠ S) (hTact : active.contains T = true)
    (hmem : StateFile.mk T (some L) ∈ fs.stateFiles)
    (hL : L ≠ "") (hLex : isfile fs L = true) :
    resolve S fs active ≠ L := by
  have hclaim : L ∈ claimedSet S fs active :=
    mem_claimedSet.mpr ⟨⟨T, some L⟩, hmem, hT, hTact, rfl, hL, hLex⟩
  rw [resolve_eq_fallback hfp]
  rcases fallback_cases S fs active with ⟨t, _, hres, hnot⟩ | ⟨_, hres⟩
  · rw [hres]; intro he; exact hnot (he ▸ hclaim)
  · rw [hres]; exact fun he => hL he.symm

/-- C2 witness: the `test_one_stale_does_not_steal` snapshot — stale
`ttys000` must not take `ttys009`'s transcript. -/
theorem no_steal_witness :
    resolve "ttys000" wfsStale ["ttys000", "ttys009"] ≠ "/p/bbb.jsonl" :=
  no_steal "ttys000" "ttys009" "/p/bbb.jsonl" wfsStale ["ttys000", "ttys009"]
    (by decide) (by decide) (by decide) (by decide) (by decide) (by decide)

/-- C4: Dead-session release.  If every record pointing at log `L` belongs to
a session absent from the active set, then `L` is never in the claimed set;
consequently, when the querying session's fast path fails and `L` heads the
mtime-ordered candidates, the fallback hands `L` out. -/
theorem dead_session_release (S L : String) (fs : FS) (active : List String)
    (hdead : ∀ r ∈ fs.stateFiles, r.content = some L →
      active.contains r.tty = false) :
    L ∉ claimedSet S fs active ∧
      (fastPath S fs = none → ∀ m : Int,
        (sortedCandidates fs).head? = some (L, m) →
        resolve S fs active = L) := by
  have hnc : L ∉ claimedSet S fs active := by
    intro hmem
    rcases mem_claimedSet.mp hmem with ⟨r, hr, _, hact, hc, _, _⟩
    rw [hdead r hr hc] at hact
    cases hact
  refine ⟨hnc, ?_⟩
  intro hfp m hhead
  rw [resolve_eq_fallback hfp]
  unfold fallback
  rcases hsc : sortedCandidates fs with _ | ⟨a, rest⟩
  · rw [hsc] at hhead; cases hhead
  · rw [hsc] at hhead
    simp only [List.head?_cons] at hhead
    injection hhead with ha
    subst ha
    rw [List.find?_cons_of_pos _ (by simp [hnc])]

/-- C4 witness: the `test_dead_session_claim_not_blocking` snapshot — the
only transcript is recorded by inactive `ttys005` and is still handed out. -/
theorem dead_session_release_witness :
    resolve "ttys000" wfsDead ["ttys000"] = "/p/only.jsonl" :=
  (dead_session_release "ttys000" "/p/only.jsonl" wfsDead ["ttys000"]
    (by decide)).2 (by decide) 100 (by decide)

/-- C5: Fallback ordering.  When the fast path fails, either `resolve`
returns a candidate that is unclaimed and whose mtime is maximal among the
unclaimed candidates, or every candidate is claimed (in particular when there
are none) and `resolve` returns `""`. -/
theorem fallback_ordering (S : String) (fs : FS) (active : List String)
    (hfp : fastPath S fs = none) :
    (∃ c : String × Int, c ∈ fs.candidates ∧ resolve S fs active = c.1 ∧
        c.1 ∉ claimedSet S fs active ∧
        ∀ u ∈ fs.candidates, u.1 ∉ claimedSet S fs active → u.2 ≤ c.2) ∨
      (resolve S fs active = "" ∧
        ∀ u ∈ fs.candidates, u.1 ∈ claimedSet S fs active) := by
  rw [resolve_eq_fallback hfp]
  rcases fallback_cases S fs active with ⟨t, hfind, hres, hnot⟩ | ⟨hfind, hres⟩
  · left
    refine ⟨t, ?_, hres, hnot, ?_⟩
    · exact (sortedCandidates_perm fs).mem_iff.mp (List.mem_of_find?_eq_some hfind)
    · intro u hu hunc
      have hu' : u ∈ sortedCandidates fs := (sortedCandidates_perm fs).mem_iff.mpr hu
      exact find?_sorted_max (sortedCandidates_sorted fs) hfind u hu' (by simp [hunc])
  · right
    refine ⟨hres, fun u hu => ?_⟩
    have hu' : u ∈ sortedCandidates fs := (sortedCandidates_perm fs).mem_iff.mpr hu
    have hp := List.find?_eq_none.mp hfind u hu'
    simpa using hp

/-- C5 witness: the `test_state_file_missing` snapshot (empty state dir, an
older and a newer transcript); the most recently modified one is returned. -/
theorem fallback_ordering_witness :
    ((∃ c : String × Int, c ∈ wfsEmpty.candidates ∧
        resolve "ttys000" wfsEmpty ["ttys000"] = c.1 ∧
        c.1 ∉ claimedSet "ttys000" wfsEmpty ["ttys000"] ∧
        ∀ u ∈ wfsEmpty.candidates,
          u.1 ∉ claimedSet "ttys000" wfsEmpty ["ttys000"] → u.2 ≤ c.2) ∨
      (resolve "ttys000" wfsEmpty ["ttys000"] = "" ∧
        ∀ u ∈ wfsEmpty.candidates,
          u.1 ∈ claimedSet "ttys000" wfsEmpty ["ttys000"])) ∧
      resolve "ttys000" wfsEmpty ["ttys000"] = "/p/new.jsonl" :=
  ⟨fallback_ordering "ttys000" wfsEmpty ["ttys000"] (by decide), by decide⟩

/-- Dropping an element mapped to `none` does not change a `filterMap`. -/
theorem filterMap_middle_none {α β : Type} (f : α → Option β) (l1 l2 : List α)
    (a : α) (h : f a = none) :
    (l1 ++ a :: l2).filterMap f = (l1 ++ l2).filterMap f := by
  rw [List.filterMap_append, List.filterMap_append, List.filterMap_cons, h]

/-- Dropping an element on which the predicate fails does not change a
`find?`. -/
theorem find?_middle_neg {α : Type} (p : α → Bool) (l1 l2 : List α) (a : α)
    (h : p a = false) :
    (l1 ++ a :: l2).find? p = (l1 ++ l2).find? p := by
  induction l1 with
  | nil =>
    simpa using List.find?_cons_of_neg l2 (by simp [h])
  | cons b t ih =>
    cases hb : p b with
    | true =>
      rw [List.cons_append, List.find?_cons_of_pos _ hb, List.cons_append,
        List.find?_cons_of_pos _ hb]
    | false =>
      rw [List.cons_append, List.find?_cons_of_neg _ (by simp [hb]),
        List.cons_append, List.find?_cons_of_neg _ (by simp [hb]), ih]

/-- A successful fast path certifies a non-empty path to an existing file. -/
theorem fastPath_isfile {S tp : String} {fs : FS}
    (h : fastPath S fs = some tp) : tp ≠ "" ∧ isfile fs tp = true := by
  unfold fastPath at h
  split at h
  · split at h
    · split at h
      · rename_i hok
        injection h with h'
        subst h'
        simp only [Bool.and_eq_true, Bool.not_eq_true'] at hok
        exact ⟨ne_of_beq_false hok.1, hok.2⟩
      · cases h
    · cases h
  · cases h

/-- C7: Error containment.  A state record whose read or parse fails
(modelled by `content = none`) is handled exactly as if the record did not
exist: deleting it from the state directory does not change the result of
`resolve`, for any querying session and any active set.  (In the embedding
`resolve`, `claudeTtys` and `mapSlot` are total functions, so no error can
escape them; a nonexistent state directory is the snapshot with an empty
record list.) -/
theorem error_containment (S T : String) (l1 l2 : List StateFile)
    (ex : List String) (cand : List (String × Int)) (active : List String)
    (hnodup : ((l1 ++ ⟨T, none⟩ :: l2).map StateFile.tty).Nodup) :
    resolve S ⟨l1 ++ ⟨T, none⟩ :: l2, ex, cand⟩ active =
      resolve S ⟨l1 ++ l2, ex, cand⟩ active := by
  have hclaim : claimedSet S ⟨l1 ++ ⟨T, none⟩ :: l2, ex, cand⟩ active =
      claimedSet S ⟨l1 ++ l2, ex, cand⟩ active := by
    unfold claimedSet
    exact filterMap_middle_none _ l1 l2 ⟨T, none⟩
      (by unfold claimOf; split <;> rfl)
  have hfall : fallback S ⟨l1 ++ ⟨T, none⟩ :: l2, ex, cand⟩ active =
      fallback S ⟨l1 ++ l2, ex, cand⟩ active := by
    unfold fallback
    rw [hclaim]
    rfl
  by_cases hTS : T = S
  · subst hTS
    rw [List.map_append, List.map_cons, List.nodup_append] at hnodup
    have hS1 : T ∉ l1.map StateFile.tty := fun hmem =>
      hnodup.2.2 hmem (List.mem_cons_self _ _)
    have hS2 : T ∉ l2.map StateFile.tty := (List.nodup_cons.mp hnodup.2.1).1
    have hl1 : l1.find? (fun r => r.tty == T) = none := by
      rw [List.find?_eq_none]
      intro x hx hpx
      have hxS : x.tty = T := by simpa using hpx
      exact hS1 (by rw [← hxS]; exact List.mem_map_of_mem StateFile.tty hx)
    have hl2 : l2.find? (fun r => r.tty == T) = none := by
      rw [List.find?_eq_none]
      intro x hx hpx
      have hxS : x.tty = T := by simpa using hpx
      exact hS2 (by rw [← hxS]; exact List.mem_map_of_mem StateFile.tty hx)
    have h1 : fastPath T ⟨l1 ++ ⟨T, none⟩ :: l2, ex, cand⟩ = none := by
      unfold fastPath
      rw [List.find?_append, hl1, List.find?_cons_of_pos _ (by simp)]
      rfl
    have h2 : fastPath T ⟨l1 ++ l2, ex, cand⟩ = none := by
      unfold fastPath
      rw [List.find?_append, hl1, hl2]
      rfl
    rw [resolve_eq_fallback h1, resolve_eq_fallback h2, hfall]
  · have hfp : fastPath S ⟨l1 ++ ⟨T, none⟩ :: l2, ex, cand⟩ =
        fastPath S ⟨l1 ++ l2, ex, cand⟩ := by
      unfold fastPath
      rw [find?_middle_neg _ l1 l2 _ (by simp [hTS])]
      rfl
    cases hf : fastPath S ⟨l1 ++ l2, ex, cand⟩ with
    | some tp =>
      unfold resolve
      rw [hfp, hf]
    | none =>
      rw [resolve_eq_fallback (hfp.trans hf), resolve_eq_fallback hf, hfall]

/-- C7 witness: the `test_corrupt_state_file` snapshot — the unreadable
record behaves exactly like no record, and the call still returns a value. -/
theorem error_containment_witness :
    resolve "ttys000" wfsCorrupt ["ttys000"] =
      resolve "ttys000" wfsCorruptRemoved ["ttys000"] :=
  error_containment "ttys000" "ttys000" [] [] ["/p/real.jsonl"]
    [("/p/real.jsonl", 100)] ["ttys000"] (by decide)

/-- C9: Own-liveness noninterference.  Two active sets that agree on every
identifier other than the querying session's own produce the same resolution
result, on every path. -/
theorem own_liveness_noninterference (S : String) (fs : FS)
    (A A' : List String)
    (h : ∀ t, t ≠ S → A.contains t = A'.contains t) :
    resolve S fs A = resolve S fs A' := by
  have hcl : claimedSet S fs A = claimedSet S fs A' := by
    unfold claimedSet
    apply List.filterMap_congr
    intro r _
    unfold claimOf
    by_cases hrS : r.tty = S
    · simp [hrS]
    · rw [h r.tty hrS]
  cases hf : fastPath S fs with
  | some tp =>
    unfold resolve
    rw [hf]
  | none =>
    rw [resolve_eq_fallback hf, resolve_eq_fallback hf]
    unfold fallback
    rw [hcl]

/-- C9 witness: on the stale-record snapshot, removing the querying session
itself from the active set does not change the result. -/
theorem own_liveness_noninterference_witness :
    resolve "ttys000" wfsStale ["ttys000", "ttys009"] =
      resolve "ttys000" wfsStale ["ttys009"] :=
  own_liveness_noninterference "ttys000" wfsStale
    ["ttys000", "ttys009"] ["ttys009"]
    (fun t ht => by
      have hb : (t == "ttys000") = false := by simpa using ht
      rw [List.contains_cons, hb, Bool.false_or])

/-- C10: Existing-file postcondition.  In a well-formed snapshot (every
candidate listed by the glob exists), a non-empty result of `resolve` names
an existing file, and is either the fast path's verified `transcript_path`
or one of the `*.jsonl` candidates. -/
theorem existing_file_postcondition (S : String) (fs : FS)
    (active : List String)
    (hwf : ∀ c ∈ fs.candidates, isfile fs c.1 = true)
    (hne : resolve S fs active ≠ "") :
    isfile fs (resolve S fs active) = true ∧
      (fastPath S fs = some (resolve S fs active) ∨
        resolve S fs active ∈ fs.candidates.map Prod.fst) := by
  cases hf : fastPath S fs with
  | some tp =>
    have hres : resolve S fs active = tp := by
      unfold resolve
      rw [hf]
    rw [hres]
    exact ⟨(fastPath_isfile hf).2, Or.inl rfl⟩
  | none =>
    rw [resolve_eq_fallback hf] at hne ⊢
    rcases fallback_cases S fs active with ⟨t, hfind, hres, _⟩ | ⟨_, hres⟩
    · have hmem : t ∈ fs.candidates :=
        (sortedCandidates_perm fs).mem_iff.mp (List.mem_of_find?_eq_some hfind)
      rw [hres]
      exact ⟨hwf t hmem, Or.inr (List.mem_map_of_mem Prod.fst hmem)⟩
    · exact absurd hres hne

/-- C10 witness: the valid-record snapshot returns an existing file. -/
theorem existing_file_postcondition_witness :
    isfile wfsValid (resolve "ttys000" wfsValid ["ttys000"]) = true ∧
      (fastPath "ttys000" wfsValid =
          some (resolve "ttys000" wfsValid ["ttys000"]) ∨
        resolve "ttys000" wfsValid ["ttys000"] ∈
          wfsValid.candidates.map Prod.fst) :=
  existing_file_postcondition "ttys000" wfsValid ["ttys000"]
    (by decide) (by decide)

/-! ### Slot-mapping claims -/

/-- Reading slot `n` from the loop-built cache fragment starting at slot `s`
with `fuel` iterations: the entry exists iff `s ≤ n < s + fuel` and then
holds the reversed-index element. -/
theorem lookup_slotLoopAux (live : List String) :
    ∀ (fuel s n : Nat), (slotLoopAux live s fuel).lookup n =
      if s ≤ n ∧ n < s + fuel then
        some (live.getD (live.length - n) "")
      else none := by
  intro fuel
  induction fuel with
  | zero =>
    intro s n
    rw [if_neg (by omega)]
    rfl
  | succ fuel ih =>
    intro s n
    by_cases hn : n = s
    · subst hn
      rw [if_pos (by omega)]
      simp [slotLoopAux, List.lookup]
    · have hns : (n == s) = false := by simpa using hn
      show (slotLoopAux live s (fuel + 1)).lookup n = _
      rw [show slotLoopAux live s (fuel + 1) =
          (s, live.getD (live.length - s) "") :: slotLoopAux live (s + 1) fuel
        from rfl]
      rw [List.lookup_cons, hns, ih (s + 1) n]
      by_cases hc : s + 1 ≤ n ∧ n < s + 1 + fuel
      · rw [if_pos hc, if_pos (by omega)]
      · rw [if_neg hc, if_neg (by omega)]


/-- C3: Slot inversion.  For `1 ≤ n ≤ count` the cache read for slot `n`
yields the `(count - n + 1)`-th live tab (1-based), i.e. index `count - n`
(0-based); for `n > count` it yields nothing and the icon hides. -/
theorem slot_inversion (tabs : List String) (pids : List (String × Nat)) :
    (∀ n, 1 ≤ n → n ≤ slotCount tabs pids →
      mapSlot tabs pids n = (claudeTtys tabs pids)[slotCount tabs pids - n]?) ∧
    (∀ n, slotCount tabs pids < n → mapSlot tabs pids n = none) := by
  constructor
  · intro n h1 h2
    unfold slotCount at h2 ⊢
    unfold mapSlot slotAssignments
    rw [lookup_slotLoopAux, if_pos (by omega)]
    have hlt : (claudeTtys tabs pids).length - n < (claudeTtys tabs pids).length := by
      omega
    rw [List.getD_eq_getElem?_getD, List.getElem?_eq_getElem hlt]
    rfl
  · intro n h
    unfold slotCount at h
    unfold mapSlot slotAssignments
    rw [lookup_slotLoopAux, if_neg (by omega)]

/-- C3 witness: the spec's scenario — slot 1 is the last live tab, slot 2 the
first, slot 3 empty. -/
theorem slot_inversion_witness :
    (mapSlot wtabs wpids 1 = (claudeTtys wtabs wpids)[slotCount wtabs wpids - 1]? ∧
      mapSlot wtabs wpids 2 = (claudeTtys wtabs wpids)[slotCount wtabs wpids - 2]? ∧
      mapSlot wtabs wpids 3 = none) ∧
      mapSlot wtabs wpids 1 = some "/dev/ttys000" ∧
      mapSlot wtabs wpids 2 = some "/dev/ttys009" :=
  ⟨⟨(slot_inversion wtabs wpids).1 1 (by decide) (by decide),
    (slot_inversion wtabs wpids).1 2 (by decide) (by decide),
    (slot_inversion wtabs wpids).2 3 (by decide)⟩,
    by decide, by decide⟩

/-- C6: liveSessions filtering.  `CLAUDE_TTYS` is an order-preserving
subsequence of the tab order containing exactly the tabs with a live PID, and
the published `SLOT_COUNT` is its length. -/
theorem liveSessions_filtering (tabs : List String)
    (pids : List (String × Nat)) :
    (claudeTtys tabs pids).Sublist tabs ∧
    (∀ x, x ∈ claudeTtys tabs pids ↔
      x ∈ tabs ∧ (pids.lookup x).isSome = true) ∧
    slotCount tabs pids = (claudeTtys tabs pids).length :=
  ⟨List.filter_sublist tabs,
    fun x => by simp [claudeTtys, List.mem_filter],
    rfl⟩

/-- C6 witness: the scenario list `[T9, T0, T2]` with `{T9, T0}` live. -/
theorem liveSessions_filtering_witness :
    (claudeTtys wtabs wpids).Sublist wtabs ∧
    (∀ x, x ∈ claudeTtys wtabs wpids ↔
      x ∈ wtabs ∧ (wpids.lookup x).isSome = true) ∧
    slotCount wtabs wpids = (claudeTtys wtabs wpids).length :=
  liveSessions_filtering wtabs wpids

/-- C8: Permutation invariance.  Permuting the tab order (PID map fixed)
leaves the set of live identifiers and `SLOT_COUNT` unchanged; only the
positional slot mapping may change. -/
theorem liveness_perm_invariance (tabs tabs' : List String)
    (pids : List (String × Nat)) (h : tabs.Perm tabs') :
    (∀ x, x ∈ claudeTtys tabs pids ↔ x ∈ claudeTtys tabs' pids) ∧
    slotCount tabs pids = slotCount tabs' pids := by
  have hp : (claudeTtys tabs pids).Perm (claudeTtys tabs' pids) :=
    h.filter _
  exact ⟨fun x => hp.mem_iff, hp.length_eq⟩

/-- C8 witness: swapping the first two tabs (the `test_tab_reorder_reflected`
scenario) keeps the live set and the count. -/
theorem liveness_perm_invariance_witness :
    (∀ x, x ∈ claudeTtys wtabs wpids ↔ x ∈ claudeTtys wtabsSwapped wpids) ∧
    slotCount wtabs wpids = slotCount wtabsSwapped wpids :=
  liveness_perm_invariance wtabs wtabsSwapped wpids (by decide)

end ClaudeSwiftBar
